import Mathlib

/-!
Shallow embedding of the schema validation layer of the SimpleMicroservices
meal-plan repository: the `DiningLocation` and `MealPlan` pydantic models
(`src/models/dining_location.py`, `src/models/meal_plan.py`) with their
Base / Create / Update / Read shapes.

Payloads are modelled as association lists of JSON-like values; validation
follows pydantic v2 default-mode semantics for the field kinds the source
uses: required fields (`Field(...)`), defaulted fields
(`Field(default_factory=uuid4)`, `Field(default_factory=datetime.utcnow)`,
`Field(default_factory=list)`), optional fields (`Optional[...] = Field(None)`),
type checks with numeric string coercion for `int` and `float` fields, and
recursive validation of the embedded `dining_locations` list.  Validation
errors are accumulated across fields, each carrying a location path and a
kind (missing / type error), mirroring the error list of pydantic.

Server-generated defaults (`uuid4`, `datetime.utcnow`) are nondeterministic
in the source; they are modelled by an explicit environment `Env` supplying
the values each draw would produce, and theorems quantify over it.
-/

namespace MealPlanService

/-- Opaque model of Python `uuid.UUID` values. -/
structure UUID where
  val : Nat
deriving DecidableEq, Repr

/-- Opaque model of Python `datetime.datetime` values. -/
structure DateTime where
  val : Nat
deriving DecidableEq, Repr

/-- JSON-like values of a decoded request payload.  Besides JSON primitives it
includes already-typed `uuid` and `datetime` values, as pydantic accepts
`UUID` / `datetime` instances directly and `model_dump()` produces them. -/
inductive Value where
  | str : String → Value
  | int : Int → Value
  | float : Rat → Value
  | uuid : UUID → Value
  | datetime : DateTime → Value
  | null : Value
  | list : List Value → Value
  | obj : List (String × Value) → Value
deriving Repr

/-- A decoded request body: field name to value. -/
abbrev Payload := List (String × Value)

/-- First binding of a key in a payload (payloads decoded from JSON objects
have unique keys). -/
def lookupField (p : Payload) (k : String) : Option Value :=
  match p with
  | [] => none
  | (k', v) :: rest => if k' = k then some v else lookupField rest k

/-- One step of an error location path, as in the `loc` tuples of pydantic. -/
inductive Loc where
  | field : String → Loc
  | index : Nat → Loc
deriving DecidableEq, Repr

/-- Kind of a validation error. -/
inductive ErrKind where
  | missing
  | typeError
deriving DecidableEq, Repr

/-- A single validation error: location path plus kind. -/
structure VErr where
  loc : List Loc
  kind : ErrKind
deriving DecidableEq, Repr

/-- Extend the location path of an error on the outside. -/
def pushLoc (l : Loc) (e : VErr) : VErr := ⟨l :: e.loc, e.kind⟩

/-- Environment supplying the values that the server-side default factories
(`uuid4`, `datetime.utcnow`) would generate, one per draw. -/
structure Env where
  uuids : Nat → UUID
  times : Nat → DateTime

/- ### Scalar coercions (pydantic v2 default mode) -/

/-- Digits of a decimal string, folded to a natural number. -/
def natOfDigits (cs : List Char) : Nat :=
  cs.foldl (fun a c => a * 10 + (c.toNat - 48)) 0

/-- Whether every character is a decimal digit. -/
def allDigits (cs : List Char) : Bool :=
  cs.all Char.isDigit

/-- Integer-string parsing: optional sign followed by at least one digit. -/
def parseIntChars : List Char → Option Int
  | [] => none
  | '+' :: cs => if cs ≠ [] ∧ allDigits cs then some (natOfDigits cs) else none
  | '-' :: cs => if cs ≠ [] ∧ allDigits cs then some (-(natOfDigits cs : Int)) else none
  | cs => if allDigits cs then some (natOfDigits cs) else none

/-- Decimal-string parsing for `float` fields: optional sign, digits, and an
optional fractional part. -/
def parseDecChars : List Char → Option Rat
  | [] => none
  | '+' :: cs => parseUnsignedDec cs
  | '-' :: cs => (parseUnsignedDec cs).map Neg.neg
  | cs => parseUnsignedDec cs
where
  parseUnsignedDec (cs : List Char) : Option Rat :=
    let ip := cs.takeWhile (fun c => c ≠ '.')
    match cs.dropWhile (fun c => c ≠ '.') with
    | [] =>
        if ip ≠ [] ∧ allDigits ip then some ((natOfDigits ip : Int) : Rat) else none
    | _ :: frac =>
        if (ip ≠ [] ∨ frac ≠ []) ∧ allDigits ip ∧ allDigits frac ∧ frac.all (fun c => c ≠ '.') then
          some (((natOfDigits ip * 10 ^ frac.length + natOfDigits frac : Nat) : Rat) / ((10 ^ frac.length : Nat) : Rat))
        else none

/-- Coercion to `str` fields: only strings are accepted. -/
def parseStr : Value → Option String
  | .str s => some s
  | _ => none

/-- Coercion to `int` fields: integers, integer-valued floats, and
integer strings. -/
def parseIntV : Value → Option Int
  | .int n => some n
  | .float q => if q.den = 1 then some q.num else none
  | .str s => parseIntChars s.toList
  | _ => none

/-- Coercion to `float` fields: floats, integers, and numeric strings. -/
def parseFloatV : Value → Option Rat
  | .float q => some q
  | .int n => some (n : Rat)
  | .str s => parseDecChars s.toList
  | _ => none

/-- Coercion to `UUID` fields: already-typed UUID values. -/
def parseUUIDV : Value → Option UUID
  | .uuid u => some u
  | _ => none

/-- Coercion to `datetime` fields: already-typed datetime values. -/
def parseDateTimeV : Value → Option DateTime
  | .datetime d => some d
  | _ => none

/- ### Field validators and error-accumulating combination -/

/-- Validate a required field (`Field(...)`): missing key is an error, and a
present value must coerce. -/
def requiredField (p : Payload) (k : String) (parse : Value → Option α) :
    Except (List VErr) α :=
  match lookupField p k with
  | none => .error [⟨[.field k], .missing⟩]
  | some v =>
      match parse v with
      | some a => .ok a
      | none => .error [⟨[.field k], .typeError⟩]

/-- Validate a field with a default (`Field(default_factory=...)`): a missing
key yields the factory value, and a present value must coerce. -/
def defaultedField (p : Payload) (k : String) (parse : Value → Option α) (dflt : α) :
    Except (List VErr) α :=
  match lookupField p k with
  | none => .ok dflt
  | some v =>
      match parse v with
      | some a => .ok a
      | none => .error [⟨[.field k], .typeError⟩]

/-- Validate an `Optional[...] = Field(None)` field: missing or `null` yields
`none`, any other value must coerce. -/
def optionalField (p : Payload) (k : String) (parse : Value → Option α) :
    Except (List VErr) (Option α) :=
  match lookupField p k with
  | none => .ok none
  | some .null => .ok none
  | some v =>
      match parse v with
      | some a => .ok (some a)
      | none => .error [⟨[.field k], .typeError⟩]

/-- Combine field results the way pydantic does: apply when all succeed,
otherwise accumulate every error in field order. -/
def vseq : Except (List VErr) (α → β) → Except (List VErr) α → Except (List VErr) β
  | .ok f, .ok a => .ok (f a)
  | .ok _, .error es => .error es
  | .error es, .ok _ => .error es
  | .error es, .error es' => .error (es ++ es')

/-- Map over the error list of a result. -/
def mapErr (f : List VErr → List VErr) : Except (List VErr) α → Except (List VErr) α
  | .ok a => .ok a
  | .error es => .error (f es)

/- ### DiningLocation shapes (src/models/dining_location.py) -/

/-- Fields of `DiningLocationBase`: server-defaulted id plus required
`name : str` and `capacity : int`. -/
structure DiningLocationBase where
  dining_location_id : UUID
  name : String
  capacity : Int
deriving DecidableEq, Repr

/-- `DiningLocationCreate` adds no fields to the base model. -/
abbrev DiningLocationCreate := DiningLocationBase

/-- Fields of `DiningLocationUpdate`: all optional, no id field. -/
structure DiningLocationUpdate where
  name : Option String
  capacity : Option Int
deriving DecidableEq, Repr

/-- Fields of `DiningLocationRead`: base fields plus defaulted timestamps. -/
structure DiningLocationRead where
  dining_location_id : UUID
  name : String
  capacity : Int
  created_at : DateTime
  updated_at : DateTime
deriving DecidableEq, Repr

/-- Validate a value against `DiningLocationBase`; `fresh` is the UUID the
`uuid4` default factory would generate for this entry. -/
def validateDiningLocationBaseV (fresh : UUID) : Value → Except (List VErr) DiningLocationBase
  | .obj p =>
      vseq (vseq (vseq (.ok DiningLocationBase.mk)
        (defaultedField p "dining_location_id" parseUUIDV fresh))
        (requiredField p "name" parseStr))
        (requiredField p "capacity" parseIntV)
  | _ => .error [⟨[], .typeError⟩]

/-- Validate a payload against `DiningLocationBase`. -/
def validateDiningLocationBase (env : Env) (p : Payload) : Except (List VErr) DiningLocationBase :=
  validateDiningLocationBaseV (env.uuids 0) (.obj p)

/-- Validate a payload against `DiningLocationCreate` (same fields as Base). -/
def validateDiningLocationCreate (env : Env) (p : Payload) : Except (List VErr) DiningLocationCreate :=
  validateDiningLocationBase env p

/-- Validate a payload against `DiningLocationUpdate`; no defaults are drawn
and no id field is read. -/
def validateDiningLocationUpdate (p : Payload) : Except (List VErr) DiningLocationUpdate :=
  vseq (vseq (.ok DiningLocationUpdate.mk)
    (optionalField p "name" parseStr))
    (optionalField p "capacity" parseIntV)

/-- Validate a payload against `DiningLocationRead`: base fields plus the two
defaulted timestamps. -/
def validateDiningLocationRead (env : Env) (p : Payload) : Except (List VErr) DiningLocationRead :=
  vseq (vseq (vseq (vseq (vseq (.ok DiningLocationRead.mk)
    (defaultedField p "dining_location_id" parseUUIDV (env.uuids 0)))
    (requiredField p "name" parseStr))
    (requiredField p "capacity" parseIntV))
    (defaultedField p "created_at" parseDateTimeV (env.times 0)))
    (defaultedField p "updated_at" parseDateTimeV (env.times 1))

/- ### MealPlan shapes (src/models/meal_plan.py) -/

/-- Fields of `MealPlanBase`: server-defaulted id, required `name`, `type`,
`cost`, optional date bounds, and an embedded list of dining locations
defaulting to the empty list. -/
structure MealPlanBase where
  meal_plan_id : UUID
  name : String
  type : String
  cost : Rat
  start_date : Option DateTime
  end_date : Option DateTime
  dining_locations : List DiningLocationBase
deriving DecidableEq, Repr

/-- `MealPlanCreate` adds no fields to the base model. -/
abbrev MealPlanCreate := MealPlanBase

/-- Fields of `MealPlanUpdate`: all optional, no id field. -/
structure MealPlanUpdate where
  name : Option String
  type : Option String
  cost : Option Rat
  start_date : Option DateTime
  end_date : Option DateTime
  dining_locations : Option (List DiningLocationBase)
deriving DecidableEq, Repr

/-- Fields of `MealPlanRead`: base fields plus a second server-generated
`id` and the two defaulted timestamps. -/
structure MealPlanRead where
  meal_plan_id : UUID
  name : String
  type : String
  cost : Rat
  start_date : Option DateTime
  end_date : Option DateTime
  dining_locations : List DiningLocationBase
  id : UUID
  created_at : DateTime
  updated_at : DateTime
deriving DecidableEq, Repr

/-- Validate the entries of a `dining_locations` list recursively against
`DiningLocationBase`, entry `i` drawing `fresh i` if it omits its id; errors
are tagged with the index of the entry, and results keep the input order. -/
def validateDLList (fresh : Nat → UUID) (i : Nat) : List Value → Except (List VErr) (List DiningLocationBase)
  | [] => .ok []
  | v :: vs =>
      vseq (vseq (.ok List.cons)
        (mapErr (List.map (pushLoc (.index i))) (validateDiningLocationBaseV (fresh i) v)))
        (validateDLList fresh (i + 1) vs)

/-- Validate the `dining_locations` field of a meal plan: missing yields the
`default_factory=list` empty list, a list value is validated entrywise, and
any other value is a type error. -/
def diningLocationsField (p : Payload) (fresh : Nat → UUID) :
    Except (List VErr) (List DiningLocationBase) :=
  match lookupField p "dining_locations" with
  | none => .ok []
  | some (.list vs) => mapErr (List.map (pushLoc (.field "dining_locations"))) (validateDLList fresh 0 vs)
  | some _ => .error [⟨[.field "dining_locations"], .typeError⟩]

/-- Validate a payload against `MealPlanBase`.  The top-level `uuid4` draw is
`env.uuids 0`; entry `i` of `dining_locations` draws `env.uuids (2 + i)`
(index 1 is reserved for the `id` field of the Read shape). -/
def validateMealPlanBase (env : Env) (p : Payload) : Except (List VErr) MealPlanBase :=
  vseq (vseq (vseq (vseq (vseq (vseq (vseq (.ok MealPlanBase.mk)
    (defaultedField p "meal_plan_id" parseUUIDV (env.uuids 0)))
    (requiredField p "name" parseStr))
    (requiredField p "type" parseStr))
    (requiredField p "cost" parseFloatV))
    (optionalField p "start_date" parseDateTimeV))
    (optionalField p "end_date" parseDateTimeV))
    (diningLocationsField p (fun i => env.uuids (2 + i)))

/-- Validate a payload against `MealPlanCreate` (same fields as Base). -/
def validateMealPlanCreate (env : Env) (p : Payload) : Except (List VErr) MealPlanCreate :=
  validateMealPlanBase env p

/-- Validate the `Optional[List[DiningLocationBase]]` field of
`MealPlanUpdate`: missing or `null` yields `none`. -/
def optDiningLocationsField (p : Payload) (fresh : Nat → UUID) :
    Except (List VErr) (Option (List DiningLocationBase)) :=
  match lookupField p "dining_locations" with
  | none => .ok none
  | some .null => .ok none
  | some (.list vs) =>
      Except.map some (mapErr (List.map (pushLoc (.field "dining_locations"))) (validateDLList fresh 0 vs))
  | some _ => .error [⟨[.field "dining_locations"], .typeError⟩]

/-- Validate a payload against `MealPlanUpdate`: every field optional, no id
field is read. -/
def validateMealPlanUpdate (env : Env) (p : Payload) : Except (List VErr) MealPlanUpdate :=
  vseq (vseq (vseq (vseq (vseq (vseq (.ok MealPlanUpdate.mk)
    (optionalField p "name" parseStr))
    (optionalField p "type" parseStr))
    (optionalField p "cost" parseFloatV))
    (optionalField p "start_date" parseDateTimeV))
    (optionalField p "end_date" parseDateTimeV))
    (optDiningLocationsField p (fun i => env.uuids (2 + i)))

/-- Validate a payload against `MealPlanRead`: base fields plus the
server-generated `id` (drawing `env.uuids 1`) and the timestamps. -/
def validateMealPlanRead (env : Env) (p : Payload) : Except (List VErr) MealPlanRead :=
  vseq (vseq (vseq (vseq (vseq (vseq (vseq (vseq (vseq (vseq (.ok MealPlanRead.mk)
    (defaultedField p "meal_plan_id" parseUUIDV (env.uuids 0)))
    (requiredField p "name" parseStr))
    (requiredField p "type" parseStr))
    (requiredField p "cost" parseFloatV))
    (optionalField p "start_date" parseDateTimeV))
    (optionalField p "end_date" parseDateTimeV))
    (diningLocationsField p (fun i => env.uuids (2 + i))))
    (defaultedField p "id" parseUUIDV (env.uuids 1)))
    (defaultedField p "created_at" parseDateTimeV (env.times 0)))
    (defaultedField p "updated_at" parseDateTimeV (env.times 1))

/- ### Serialization (model_dump, fields in declaration order) -/

/-- Serialize an optional datetime: `None` dumps as `null`. -/
def serializeOptDT : Option DateTime → Value
  | none => .null
  | some d => .datetime d

/-- Serialize a `DiningLocationBase` record to its external representation. -/
def serializeDiningLocationBase (d : DiningLocationBase) : Value :=
  .obj [("dining_location_id", .uuid d.dining_location_id),
        ("name", .str d.name),
        ("capacity", .int d.capacity)]

/-- Serialize a `DiningLocationRead` record to its external representation. -/
def serializeDiningLocationRead (d : DiningLocationRead) : Payload :=
  [("dining_location_id", .uuid d.dining_location_id),
   ("name", .str d.name),
   ("capacity", .int d.capacity),
   ("created_at", .datetime d.created_at),
   ("updated_at", .datetime d.updated_at)]

/-- Serialize a `MealPlanRead` record to its external representation. -/
def serializeMealPlanRead (m : MealPlanRead) : Payload :=
  [("meal_plan_id", .uuid m.meal_plan_id),
   ("name", .str m.name),
   ("type", .str m.type),
   ("cost", .float m.cost),
   ("start_date", serializeOptDT m.start_date),
   ("end_date", serializeOptDT m.end_date),
   ("dining_locations", .list (m.dining_locations.map serializeDiningLocationBase)),
   ("id", .uuid m.id),
   ("created_at", .datetime m.created_at),
   ("updated_at", .datetime m.updated_at)]

/- ### Applying a partial update -/

/-- Modelled from the spec: how the service layer applies a validated
`MealPlanUpdate` to a stored meal plan is not in the source of the repository; per
the spec, fields absent from the payload are not altered on the target record
and fields present overwrite prior values, while the record id is never taken
from the update body. -/
def applyMealPlanUpdate (stored : MealPlanBase) (u : MealPlanUpdate) : MealPlanBase :=
  { meal_plan_id := stored.meal_plan_id
    name := u.name.getD stored.name
    type := u.type.getD stored.type
    cost := u.cost.getD stored.cost
    start_date := match u.start_date with
      | none => stored.start_date
      | some d => some d
    end_date := match u.end_date with
      | none => stored.end_date
      | some d => some d
    dining_locations := u.dining_locations.getD stored.dining_locations }

/-- Modelled from the spec: application of a validated `DiningLocationUpdate`
to a stored dining location, with the same absent-means-unchanged rule. -/
def applyDiningLocationUpdate (stored : DiningLocationBase) (u : DiningLocationUpdate) : DiningLocationBase :=
  { dining_location_id := stored.dining_location_id
    name := u.name.getD stored.name
    capacity := u.capacity.getD stored.capacity }

/-- A concrete environment for evaluating validation at sample inputs. -/
def sampleEnv : Env :=
  { uuids := fun n => ⟨n⟩, times := fun n => ⟨n⟩ }

/- ### Helper lemmas -/

/-- A validation result fails and its error list contains `e`. -/
def hasErr (r : Except (List VErr) α) (e : VErr) : Prop :=
  ∃ es, r = .error es ∧ e ∈ es

theorem vseq_ok_iff {f : Except (List VErr) (α → β)} {x : Except (List VErr) α} {b : β} :
    vseq f x = .ok b ↔ ∃ g a, f = .ok g ∧ x = .ok a ∧ g a = b := by
  cases f <;> cases x <;> simp [vseq]

theorem vseq_ok_ok {f : Except (List VErr) (α → β)} {x : Except (List VErr) α}
    {g : α → β} {a : α} (hf : f = .ok g) (hx : x = .ok a) :
    vseq f x = .ok (g a) := by
  subst hf; subst hx; rfl

theorem hasErr_vseq_left {f : Except (List VErr) (α → β)} {x : Except (List VErr) α}
    {e : VErr} (h : hasErr f e) : hasErr (vseq f x) e := by
  obtain ⟨es, hf, he⟩ := h
  subst hf
  cases x with
  | ok a => exact ⟨es, rfl, he⟩
  | error es' => exact ⟨es ++ es', rfl, List.mem_append_left _ he⟩

theorem hasErr_vseq_right {f : Except (List VErr) (α → β)} {x : Except (List VErr) α}
    {e : VErr} (h : hasErr x e) : hasErr (vseq f x) e := by
  obtain ⟨es, hx, he⟩ := h
  subst hx
  cases f with
  | ok g => exact ⟨es, rfl, he⟩
  | error es' => exact ⟨es' ++ es, rfl, List.mem_append_right _ he⟩

theorem hasErr_mapErr_map {r : Except (List VErr) α} {e : VErr} (g : VErr → VErr)
    (h : hasErr r e) : hasErr (mapErr (List.map g) r) (g e) := by
  obtain ⟨es, hr, he⟩ := h
  subst hr
  exact ⟨es.map g, rfl, List.mem_map_of_mem g he⟩

theorem requiredField_missing {p : Payload} {k : String} {parse : Value → Option α}
    (h : lookupField p k = none) :
    requiredField p k parse = .error [⟨[.field k], .missing⟩] := by
  simp [requiredField, h]

theorem requiredField_typeError {p : Payload} {k : String} {parse : Value → Option α}
    {v : Value} (h : lookupField p k = some v) (hp : parse v = none) :
    requiredField p k parse = .error [⟨[.field k], .typeError⟩] := by
  simp [requiredField, h, hp]

theorem hasErr_requiredField_missing {p : Payload} {k : String} {parse : Value → Option α}
    (h : lookupField p k = none) :
    hasErr (requiredField p k parse) ⟨[.field k], .missing⟩ :=
  ⟨_, requiredField_missing h, List.mem_singleton.mpr rfl⟩

theorem hasErr_requiredField_typeError {p : Payload} {k : String} {parse : Value → Option α}
    {v : Value} (h : lookupField p k = some v) (hp : parse v = none) :
    hasErr (requiredField p k parse) ⟨[.field k], .typeError⟩ :=
  ⟨_, requiredField_typeError h hp, List.mem_singleton.mpr rfl⟩

/-- Rejection is preserved by the whole chain: a claim-level restatement of
`hasErr` for the final result. -/
theorem hasErr_isError {r : Except (List VErr) α} {e : VErr} (h : hasErr r e) :
    ∃ es, r = .error es ∧ e ∈ es := h

theorem validateDiningLocationBaseV_ok_iff {fresh : UUID} {p : Payload} {d : DiningLocationBase} :
    validateDiningLocationBaseV fresh (.obj p) = .ok d ↔
      defaultedField p "dining_location_id" parseUUIDV fresh = .ok d.dining_location_id ∧
      requiredField p "name" parseStr = .ok d.name ∧
      requiredField p "capacity" parseIntV = .ok d.capacity := by
  obtain ⟨di, dn, dc⟩ := d
  unfold validateDiningLocationBaseV
  rcases h1 : defaultedField p "dining_location_id" parseUUIDV fresh with es1 | a1 <;>
    rcases h2 : requiredField p "name" parseStr with es2 | a2 <;>
    rcases h3 : requiredField p "capacity" parseIntV with es3 | a3 <;>
      simp_all [vseq]

theorem validateMealPlanBase_ok_iff {env : Env} {p : Payload} {r : MealPlanBase} :
    validateMealPlanBase env p = .ok r ↔
      defaultedField p "meal_plan_id" parseUUIDV (env.uuids 0) = .ok r.meal_plan_id ∧
      requiredField p "name" parseStr = .ok r.name ∧
      requiredField p "type" parseStr = .ok r.type ∧
      requiredField p "cost" parseFloatV = .ok r.cost ∧
      optionalField p "start_date" parseDateTimeV = .ok r.start_date ∧
      optionalField p "end_date" parseDateTimeV = .ok r.end_date ∧
      diningLocationsField p (fun i => env.uuids (2 + i)) = .ok r.dining_locations := by
  obtain ⟨f1, f2, f3, f4, f5, f6, f7⟩ := r
  unfold validateMealPlanBase
  rcases h1 : defaultedField p "meal_plan_id" parseUUIDV (env.uuids 0) with es1 | a1 <;>
    rcases h2 : requiredField p "name" parseStr with es2 | a2 <;>
    rcases h3 : requiredField p "type" parseStr with es3 | a3 <;>
    rcases h4 : requiredField p "cost" parseFloatV with es4 | a4 <;>
    rcases h5 : optionalField p "start_date" parseDateTimeV with es5 | a5 <;>
    rcases h6 : optionalField p "end_date" parseDateTimeV with es6 | a6 <;>
    rcases h7 : diningLocationsField p (fun i => env.uuids (2 + i)) with es7 | a7 <;>
      simp_all [vseq]

theorem mapErr_ok_iff {f : List VErr → List VErr} {r : Except (List VErr) α} {a : α} :
    mapErr f r = .ok a ↔ r = .ok a := by
  cases r <;> simp [mapErr]

theorem validateDLList_ok_entries {fresh : Nat → UUID} {i : Nat} {vs : List Value}
    {ds : List DiningLocationBase} (h : validateDLList fresh i vs = .ok ds) :
    ∀ j v, vs[j]? = some v →
      ∃ d, validateDiningLocationBaseV (fresh (i + j)) v = .ok d ∧ ds[j]? = some d := by
  induction vs generalizing i ds with
  | nil => intro j v hv; simp at hv
  | cons w ws ih =>
      unfold validateDLList at h
      rw [vseq_ok_iff] at h
      obtain ⟨g, as, hg, has, hb⟩ := h
      rw [vseq_ok_iff] at hg
      obtain ⟨g', a, hg', ha, hga⟩ := hg
      rw [mapErr_ok_iff] at ha
      have hcons : List.cons = g' := by simpa using hg'
      subst hcons
      subst hga
      subst hb
      intro j v hv
      match j with
      | 0 =>
          obtain rfl : w = v := by simpa using hv
          exact ⟨a, by simpa using ha, by simp⟩
      | Nat.succ j' =>
          have hv' : ws[j']? = some v := by simpa using hv
          obtain ⟨d, hd, hds⟩ := ih has j' v hv'
          refine ⟨d, ?_, by simpa using hds⟩
          have : i + 1 + j' = i + (j' + 1) := by omega
          rwa [this] at hd

theorem hasErr_validateDLList {fresh : Nat → UUID} {i : Nat} {vs : List Value}
    {j : Nat} {v : Value} {es : List VErr} {e : VErr} (hv : vs[j]? = some v)
    (he : validateDiningLocationBaseV (fresh (i + j)) v = .error es) (hm : e ∈ es) :
    hasErr (validateDLList fresh i vs) (pushLoc (.index (i + j)) e) := by
  induction vs generalizing i j with
  | nil => simp at hv
  | cons w ws ih =>
      match j with
      | 0 =>
          obtain rfl : w = v := by simpa using hv
          unfold validateDLList
          refine hasErr_vseq_left (hasErr_vseq_right ?_)
          exact hasErr_mapErr_map _ ⟨es, by simpa using he, hm⟩
      | Nat.succ j' =>
          have hv' : ws[j']? = some v := by simpa using hv
          have he' : validateDiningLocationBaseV (fresh (i + 1 + j')) v = .error es := by
            have : i + 1 + j' = i + (j' + 1) := by omega
            rwa [this]
          have := ih hv' he'
          unfold validateDLList
          have hstep : i + 1 + j' = i + (j' + 1) := by omega
          rw [hstep] at this
          exact hasErr_vseq_right this

theorem validateDLList_ok_of_entries {fresh : Nat → UUID} {i : Nat} {vs : List Value}
    (h : ∀ j v, vs[j]? = some v → ∃ d, validateDiningLocationBaseV (fresh (i + j)) v = .ok d) :
    ∃ ds, validateDLList fresh i vs = .ok ds := by
  induction vs generalizing i with
  | nil => exact ⟨[], rfl⟩
  | cons w ws ih =>
      obtain ⟨d, hd⟩ := h 0 w (by simp)
      have hrest : ∀ j v, ws[j]? = some v →
          ∃ d, validateDiningLocationBaseV (fresh (i + 1 + j)) v = .ok d := by
        intro j v hv
        have : i + 1 + j = i + (j + 1) := by omega
        rw [this]
        exact h (j + 1) v (by simpa using hv)
      obtain ⟨ds, hds⟩ := ih hrest
      refine ⟨d :: ds, ?_⟩
      unfold validateDLList
      have hd0 : fresh (i + 0) = fresh i := by norm_num
      rw [show i + 0 = i from rfl] at hd
      simp [mapErr, hd, hds, vseq]

/- ### Environment irrelevance when defaulted fields are supplied -/

/-- Whether a prospective dining-location entry supplies its own id, so that
no `uuid4` draw is needed for it. -/
def valueSuppliesId : Value → Bool
  | .obj q => (lookupField q "dining_location_id").isSome
  | _ => true

theorem defaultedField_irrel {p : Payload} {k : String} {parse : Value → Option α}
    {v : Value} (h : lookupField p k = some v) (d d' : α) :
    defaultedField p k parse d = defaultedField p k parse d' := by
  simp [defaultedField, h]

theorem validateDiningLocationBaseV_fresh_irrel {v : Value} (f f' : UUID)
    (h : valueSuppliesId v = true) :
    validateDiningLocationBaseV f v = validateDiningLocationBaseV f' v := by
  cases v with
  | obj q =>
      have : ∃ w, lookupField q "dining_location_id" = some w := by
        simpa [valueSuppliesId, Option.isSome_iff_exists] using h
      obtain ⟨w, hw⟩ := this
      unfold validateDiningLocationBaseV
      dsimp only
      rw [defaultedField_irrel hw f f']
  | str s => rfl
  | int n => rfl
  | float q => rfl
  | uuid u => rfl
  | datetime d => rfl
  | null => rfl
  | list vs => rfl

theorem validateDLList_fresh_irrel {vs : List Value} (fresh fresh' : Nat → UUID) {i : Nat}
    (h : ∀ v ∈ vs, valueSuppliesId v = true) :
    validateDLList fresh i vs = validateDLList fresh' i vs := by
  induction vs generalizing i with
  | nil => rfl
  | cons w ws ih =>
      unfold validateDLList
      rw [validateDiningLocationBaseV_fresh_irrel (fresh i) (fresh' i) (h w (by simp)),
        ih (fun v hv => h v (by simp [hv]))]

theorem diningLocationsField_fresh_irrel {p : Payload} (fresh fresh' : Nat → UUID)
    (h : ∀ vs, lookupField p "dining_locations" = some (.list vs) →
      ∀ v ∈ vs, valueSuppliesId v = true) :
    diningLocationsField p fresh = diningLocationsField p fresh' := by
  unfold diningLocationsField
  cases hl : lookupField p "dining_locations" with
  | none => rfl
  | some v =>
      cases v with
      | list vs =>
          dsimp only
          rw [validateDLList_fresh_irrel fresh fresh' (h vs hl)]
      | str s => rfl
      | int n => rfl
      | float q => rfl
      | uuid u => rfl
      | datetime d => rfl
      | null => rfl
      | obj q => rfl

/- ### Serialization round-trip lemmas -/

theorem validateDiningLocationBaseV_serialize (fresh : UUID) (d : DiningLocationBase) :
    validateDiningLocationBaseV fresh (serializeDiningLocationBase d) = .ok d := by
  obtain ⟨a, b, c⟩ := d; rfl

theorem validateDLList_map_serialize (fresh : Nat → UUID) (i : Nat)
    (ds : List DiningLocationBase) :
    validateDLList fresh i (ds.map serializeDiningLocationBase) = .ok ds := by
  induction ds generalizing i with
  | nil => rfl
  | cons d ds ih =>
      unfold validateDLList
      simp [validateDiningLocationBaseV_serialize, mapErr, vseq, ih]

theorem validateDiningLocationRead_serialize (env : Env) (d : DiningLocationRead) :
    validateDiningLocationRead env (serializeDiningLocationRead d) = .ok d := by
  obtain ⟨a, b, c, e, f⟩ := d; rfl

theorem diningLocationsField_serialize (m : MealPlanRead) (fresh : Nat → UUID) :
    diningLocationsField (serializeMealPlanRead m) fresh = .ok m.dining_locations := by
  have hlook : lookupField (serializeMealPlanRead m) "dining_locations"
      = some (.list (m.dining_locations.map serializeDiningLocationBase)) := rfl
  unfold diningLocationsField
  rw [hlook]
  dsimp only
  rw [validateDLList_map_serialize]
  rfl

theorem validateMealPlanRead_serialize (env : Env) (m : MealPlanRead) :
    validateMealPlanRead env (serializeMealPlanRead m) = .ok m := by
  obtain ⟨f1, f2, f3, f4, f5, f6, f7, f8, f9, f10⟩ := m
  unfold validateMealPlanRead
  rw [diningLocationsField_serialize ⟨f1, f2, f3, f4, f5, f6, f7, f8, f9, f10⟩
    (fun i => env.uuids (2 + i))]
  cases f5 <;> cases f6 <;> rfl

/- ### Key-skipping lemmas for payloads carrying an id entry -/

theorem lookupField_cons_ne {k' k : String} (v : Value) (p : Payload) (h : k' ≠ k) :
    lookupField ((k', v) :: p) k = lookupField p k := by
  simp [lookupField, h]

theorem optionalField_cons_ne {k' k : String} {v : Value} {p : Payload}
    {parse : Value → Option α} (h : k' ≠ k) :
    optionalField ((k', v) :: p) k parse = optionalField p k parse := by
  unfold optionalField
  rw [lookupField_cons_ne v p h]

theorem optDiningLocationsField_cons_ne {k' : String} {v : Value} {p : Payload}
    {fresh : Nat → UUID} (h : k' ≠ "dining_locations") :
    optDiningLocationsField ((k', v) :: p) fresh = optDiningLocationsField p fresh := by
  unfold optDiningLocationsField
  rw [lookupField_cons_ne v p h]

/- ### Environment irrelevance at the shape level -/

theorem validateDiningLocationCreate_env_irrel (env env' : Env) (p : Payload)
    (h : (lookupField p "dining_location_id").isSome = true) :
    validateDiningLocationCreate env p = validateDiningLocationCreate env' p := by
  obtain ⟨w, hw⟩ := Option.isSome_iff_exists.mp h
  unfold validateDiningLocationCreate validateDiningLocationBase validateDiningLocationBaseV
  dsimp only
  rw [defaultedField_irrel hw (env.uuids 0) (env'.uuids 0)]

theorem validateMealPlanCreate_env_irrel (env env' : Env) (p : Payload)
    (hid : (lookupField p "meal_plan_id").isSome = true)
    (hdl : ∀ vs, lookupField p "dining_locations" = some (.list vs) →
      ∀ v ∈ vs, valueSuppliesId v = true) :
    validateMealPlanCreate env p = validateMealPlanCreate env' p := by
  obtain ⟨w, hw⟩ := Option.isSome_iff_exists.mp hid
  unfold validateMealPlanCreate validateMealPlanBase
  rw [defaultedField_irrel hw (env.uuids 0) (env'.uuids 0),
    diningLocationsField_fresh_irrel (fun i => env.uuids (2 + i)) (fun i => env'.uuids (2 + i)) hdl]

/- ### Claims -/

/-- C1: Create validation rejects every payload missing a required field
(`name` or `capacity` for DiningLocationCreate; `name`, `type`, or `cost` for
MealPlanCreate), reporting a missing-field error on that field, and accepts
payloads supplying all required fields with well-typed values. -/
theorem create_required_fields_enforced :
    (∀ env p, lookupField p "name" = none →
      hasErr (validateDiningLocationCreate env p) ⟨[.field "name"], .missing⟩) ∧
    (∀ env p, lookupField p "capacity" = none →
      hasErr (validateDiningLocationCreate env p) ⟨[.field "capacity"], .missing⟩) ∧
    (∀ env p, lookupField p "name" = none →
      hasErr (validateMealPlanCreate env p) ⟨[.field "name"], .missing⟩) ∧
    (∀ env p, lookupField p "type" = none →
      hasErr (validateMealPlanCreate env p) ⟨[.field "type"], .missing⟩) ∧
    (∀ env p, lookupField p "cost" = none →
      hasErr (validateMealPlanCreate env p) ⟨[.field "cost"], .missing⟩) ∧
    (∀ env (u : UUID) (n : String) (c : Int),
      validateDiningLocationCreate env
        [("dining_location_id", .uuid u), ("name", .str n), ("capacity", .int c)]
        = .ok ⟨u, n, c⟩) ∧
    (∀ env (n t : String) (q : Rat),
      validateMealPlanCreate env [("name", .str n), ("type", .str t), ("cost", .float q)]
        = .ok ⟨env.uuids 0, n, t, q, none, none, []⟩) := by
  refine ⟨?_, ?_, ?_, ?_, ?_, fun env u n c => rfl, fun env n t q => rfl⟩
  · intro env p h
    unfold validateDiningLocationCreate validateDiningLocationBase validateDiningLocationBaseV
    dsimp only
    exact hasErr_vseq_left (hasErr_vseq_right (hasErr_requiredField_missing h))
  · intro env p h
    unfold validateDiningLocationCreate validateDiningLocationBase validateDiningLocationBaseV
    dsimp only
    exact hasErr_vseq_right (hasErr_requiredField_missing h)
  · intro env p h
    unfold validateMealPlanCreate validateMealPlanBase
    exact hasErr_vseq_left (hasErr_vseq_left (hasErr_vseq_left (hasErr_vseq_left
      (hasErr_vseq_left (hasErr_vseq_right (hasErr_requiredField_missing h))))))
  · intro env p h
    unfold validateMealPlanCreate validateMealPlanBase
    exact hasErr_vseq_left (hasErr_vseq_left (hasErr_vseq_left (hasErr_vseq_left
      (hasErr_vseq_right (hasErr_requiredField_missing h)))))
  · intro env p h
    unfold validateMealPlanCreate validateMealPlanBase
    exact hasErr_vseq_left (hasErr_vseq_left (hasErr_vseq_left
      (hasErr_vseq_right (hasErr_requiredField_missing h))))

/-- C1 witness: concrete payloads missing `name` (DiningLocation) and `cost`
(MealPlan) are rejected with the corresponding missing-field errors. -/
theorem create_required_fields_enforced_witness :
    hasErr (validateDiningLocationCreate sampleEnv [("capacity", Value.int 200)])
      ⟨[.field "name"], .missing⟩ ∧
    hasErr (validateMealPlanCreate sampleEnv
        [("name", Value.str "Unlimited 7 day"), ("type", Value.str "swipes")])
      ⟨[.field "cost"], .missing⟩ :=
  ⟨create_required_fields_enforced.1 sampleEnv _ rfl,
   create_required_fields_enforced.2.2.2.2.1 sampleEnv _ rfl⟩

/-- C2 counterexample: the claim that a negative `cost` is rejected is false:
a MealPlanCreate payload with `cost = -5` validates successfully and the
`cost` of the resulting record is the negative value `-5`. -/
theorem mealplan_negative_cost_accepted :
    validateMealPlanCreate sampleEnv
      [("name", Value.str "Plan"), ("type", Value.str "swipes"), ("cost", Value.float (-5))]
      = .ok ⟨⟨0⟩, "Plan", "swipes", -5, none, none, []⟩ ∧ (-5 : Rat) < 0 :=
  ⟨rfl, by norm_num⟩

/-- C2 amended: `cost` is type-checked and coerced to a numeric value, but no
sign constraint is enforced: a well-typed Create payload with any rational
`cost`, negative values included, is accepted with that exact `cost`. -/
theorem mealplan_cost_sign_unconstrained :
    ∀ env (n t : String) (q : Rat),
      validateMealPlanCreate env [("name", .str n), ("type", .str t), ("cost", .float q)]
        = .ok ⟨env.uuids 0, n, t, q, none, none, []⟩ :=
  fun _ _ _ _ => rfl

/-- C3 counterexample: the claim that an empty `name` is rejected is false: a
DiningLocationCreate payload with `name = ""` validates successfully. -/
theorem dining_empty_name_accepted :
    validateDiningLocationCreate sampleEnv [("name", Value.str ""), ("capacity", Value.int 200)]
      = .ok ⟨⟨0⟩, "", 200⟩ :=
  rfl

/-- C3 amended: `name` is required and must be a string (non-string values
are rejected with a type error), but no emptiness constraint is enforced:
any string, the empty string included, is accepted as-is. -/
theorem dining_name_string_unconstrained :
    (∀ env (u : UUID) (s : String) (c : Int),
      validateDiningLocationCreate env
        [("dining_location_id", .uuid u), ("name", .str s), ("capacity", .int c)]
        = .ok ⟨u, s, c⟩) ∧
    (∀ env p v, lookupField p "name" = some v → parseStr v = none →
      hasErr (validateDiningLocationCreate env p) ⟨[.field "name"], .typeError⟩) := by
  refine ⟨fun env u s c => rfl, ?_⟩
  intro env p v h hp
  unfold validateDiningLocationCreate validateDiningLocationBase validateDiningLocationBaseV
  dsimp only
  exact hasErr_vseq_left (hasErr_vseq_right (hasErr_requiredField_typeError h hp))

/-- C3 amended witness: the empty string is accepted as a name, and an
integer-valued `name` is rejected with a type error. -/
theorem dining_name_string_unconstrained_witness :
    validateDiningLocationCreate sampleEnv
      [("dining_location_id", Value.uuid ⟨7⟩), ("name", Value.str ""), ("capacity", Value.int 200)]
      = .ok ⟨⟨7⟩, "", 200⟩ ∧
    hasErr (validateDiningLocationCreate sampleEnv
        [("name", Value.int 3), ("capacity", Value.int 200)])
      ⟨[.field "name"], .typeError⟩ :=
  ⟨dining_name_string_unconstrained.1 sampleEnv ⟨7⟩ "" 200,
   dining_name_string_unconstrained.2 sampleEnv _ _ rfl rfl⟩

/-- C4: applying a validated MealPlanUpdate to a stored record leaves every
field whose payload entry is absent at its stored value, overwrites every
field whose payload entry is present with the value from the payload, and never
changes the record id. -/
theorem applyMealPlanUpdate_frame (stored : MealPlanBase) (u : MealPlanUpdate) :
    (applyMealPlanUpdate stored u).meal_plan_id = stored.meal_plan_id ∧
    (u.name = none → (applyMealPlanUpdate stored u).name = stored.name) ∧
    (∀ v, u.name = some v → (applyMealPlanUpdate stored u).name = v) ∧
    (u.type = none → (applyMealPlanUpdate stored u).type = stored.type) ∧
    (∀ v, u.type = some v → (applyMealPlanUpdate stored u).type = v) ∧
    (u.cost = none → (applyMealPlanUpdate stored u).cost = stored.cost) ∧
    (∀ v, u.cost = some v → (applyMealPlanUpdate stored u).cost = v) ∧
    (u.start_date = none → (applyMealPlanUpdate stored u).start_date = stored.start_date) ∧
    (∀ v, u.start_date = some v → (applyMealPlanUpdate stored u).start_date = some v) ∧
    (u.end_date = none → (applyMealPlanUpdate stored u).end_date = stored.end_date) ∧
    (∀ v, u.end_date = some v → (applyMealPlanUpdate stored u).end_date = some v) ∧
    (u.dining_locations = none →
      (applyMealPlanUpdate stored u).dining_locations = stored.dining_locations) ∧
    (∀ v, u.dining_locations = some v → (applyMealPlanUpdate stored u).dining_locations = v) := by
  refine ⟨rfl, ?_, ?_, ?_, ?_, ?_, ?_, ?_, ?_, ?_, ?_, ?_, ?_⟩ <;>
    first
      | (intro h; simp [applyMealPlanUpdate, h])
      | (intro v h; simp [applyMealPlanUpdate, h])

/-- C4 witness: the update payload carrying only `cost := 500` changes only
`cost`; `name`, `type`, and `dining_locations` keep their stored values. -/
theorem applyMealPlanUpdate_frame_witness :
    validateMealPlanUpdate sampleEnv [("cost", Value.int 500)]
      = .ok ⟨none, none, some ((500 : Int) : Rat), none, none, none⟩ ∧
    (applyMealPlanUpdate ⟨⟨10⟩, "Unlimited 7 day", "swipes", 1000, none, none,
        [⟨⟨11⟩, "Grace Dodge", 200⟩]⟩
      ⟨none, none, some ((500 : Int) : Rat), none, none, none⟩).cost = ((500 : Int) : Rat) ∧
    (applyMealPlanUpdate ⟨⟨10⟩, "Unlimited 7 day", "swipes", 1000, none, none,
        [⟨⟨11⟩, "Grace Dodge", 200⟩]⟩
      ⟨none, none, some ((500 : Int) : Rat), none, none, none⟩).name = "Unlimited 7 day" ∧
    (applyMealPlanUpdate ⟨⟨10⟩, "Unlimited 7 day", "swipes", 1000, none, none,
        [⟨⟨11⟩, "Grace Dodge", 200⟩]⟩
      ⟨none, none, some ((500 : Int) : Rat), none, none, none⟩).type = "swipes" ∧
    (applyMealPlanUpdate ⟨⟨10⟩, "Unlimited 7 day", "swipes", 1000, none, none,
        [⟨⟨11⟩, "Grace Dodge", 200⟩]⟩
      ⟨none, none, some ((500 : Int) : Rat), none, none, none⟩).dining_locations
      = [⟨⟨11⟩, "Grace Dodge", 200⟩] := by
  have h := applyMealPlanUpdate_frame
    ⟨⟨10⟩, "Unlimited 7 day", "swipes", 1000, none, none, [⟨⟨11⟩, "Grace Dodge", 200⟩]⟩
    ⟨none, none, some ((500 : Int) : Rat), none, none, none⟩
  exact ⟨rfl, h.2.2.2.2.2.2.1 _ rfl, h.2.1 rfl, h.2.2.2.1 rfl, h.2.2.2.2.2.2.2.2.2.2.2.1 rfl⟩

/-- C5: both Update shapes are entirely optional: the empty payload validates
to the all-`none` update; and neither shape reads the identifying
field, so an id entry in the update body is ignored by validation. -/
theorem update_shapes_optional_and_id_free :
    (validateDiningLocationUpdate [] = .ok ⟨none, none⟩) ∧
    (∀ env, validateMealPlanUpdate env [] = .ok ⟨none, none, none, none, none, none⟩) ∧
    (∀ v p, validateDiningLocationUpdate (("dining_location_id", v) :: p)
      = validateDiningLocationUpdate p) ∧
    (∀ env v p, validateMealPlanUpdate env (("meal_plan_id", v) :: p)
      = validateMealPlanUpdate env p) := by
  refine ⟨rfl, fun env => rfl, ?_, ?_⟩
  · intro v p
    unfold validateDiningLocationUpdate
    rw [optionalField_cons_ne (by decide), optionalField_cons_ne (by decide)]
  · intro env v p
    unfold validateMealPlanUpdate
    rw [optionalField_cons_ne (by decide), optionalField_cons_ne (by decide),
      optionalField_cons_ne (by decide), optionalField_cons_ne (by decide),
      optionalField_cons_ne (by decide), optDiningLocationsField_cons_ne (by decide)]

/-- C6: serializing a Read-shape record to its external representation and
re-validating that representation against the same Read shape yields the
original record, for every DiningLocationRead and MealPlanRead record and
every environment. -/
theorem read_serialize_roundtrip :
    (∀ env d, validateDiningLocationRead env (serializeDiningLocationRead d) = .ok d) ∧
    (∀ env m, validateMealPlanRead env (serializeMealPlanRead m) = .ok m) :=
  ⟨validateDiningLocationRead_serialize, validateMealPlanRead_serialize⟩

/-- C7: a MealPlanCreate payload whose `cost` is a string that does not parse
as a number is rejected with a type error located at the `cost` field. -/
theorem mealplan_cost_unparseable_string_rejected :
    ∀ env p s, lookupField p "cost" = some (.str s) → parseDecChars s.toList = none →
      hasErr (validateMealPlanCreate env p) ⟨[.field "cost"], .typeError⟩ := by
  intro env p s h hp
  unfold validateMealPlanCreate validateMealPlanBase
  exact hasErr_vseq_left (hasErr_vseq_left (hasErr_vseq_left
    (hasErr_vseq_right (hasErr_requiredField_typeError h
      (by simp only [parseFloatV]; exact hp)))))

/-- C7 witness: the payload with `cost = "not-a-number"` is rejected with a
type error on `cost`. -/
theorem mealplan_cost_unparseable_string_rejected_witness :
    hasErr (validateMealPlanCreate sampleEnv
        [("name", Value.str "Unlimited 7 day"), ("type", Value.str "swipes"),
         ("cost", Value.str "not-a-number")])
      ⟨[.field "cost"], .typeError⟩ :=
  mealplan_cost_unparseable_string_rejected sampleEnv _ "not-a-number" rfl rfl

/-- C8: the `dining_locations` entries of a MealPlan payload are validated by
the DiningLocation rules: on success every entry appears, validated and in
order, in the result; an entry the DiningLocation rules reject makes the
whole payload fail with an error located at the index of that entry; and when all
other fields validate, the payload is accepted exactly when every entry is. -/
theorem mealplan_nested_dining_locations_validated :
    (∀ env p vs r, lookupField p "dining_locations" = some (.list vs) →
      validateMealPlanBase env p = .ok r →
      ∀ j v, vs[j]? = some v →
        ∃ d, validateDiningLocationBaseV (env.uuids (2 + j)) v = .ok d ∧
          r.dining_locations[j]? = some d) ∧
    (∀ env p vs, lookupField p "dining_locations" = some (.list vs) →
      ∀ j v es e, vs[j]? = some v →
        validateDiningLocationBaseV (env.uuids (2 + j)) v = .error es → e ∈ es →
        hasErr (validateMealPlanBase env p)
          (pushLoc (.field "dining_locations") (pushLoc (.index j) e))) ∧
    (∀ env p vs, lookupField p "dining_locations" = some (.list vs) →
      (∃ a, defaultedField p "meal_plan_id" parseUUIDV (env.uuids 0) = .ok a) →
      (∃ a, requiredField p "name" parseStr = .ok a) →
      (∃ a, requiredField p "type" parseStr = .ok a) →
      (∃ a, requiredField p "cost" parseFloatV = .ok a) →
      (∃ a, optionalField p "start_date" parseDateTimeV = .ok a) →
      (∃ a, optionalField p "end_date" parseDateTimeV = .ok a) →
      (∀ j v, vs[j]? = some v →
        ∃ d, validateDiningLocationBaseV (env.uuids (2 + j)) v = .ok d) →
      ∃ r, validateMealPlanBase env p = .ok r) := by
  refine ⟨?_, ?_, ?_⟩
  · intro env p vs r hl hok j v hv
    have hdl := (validateMealPlanBase_ok_iff.mp hok).2.2.2.2.2.2
    unfold diningLocationsField at hdl
    rw [hl] at hdl
    dsimp only at hdl
    rw [mapErr_ok_iff] at hdl
    have := validateDLList_ok_entries hdl j v hv
    simpa using this
  · intro env p vs hl j v es e hv he hm
    have he' : validateDiningLocationBaseV ((fun i => env.uuids (2 + i)) (0 + j)) v
        = .error es := by simpa using he
    have hlist := @hasErr_validateDLList (fun i => env.uuids (2 + i)) 0 vs j v es e
      hv he' hm
    have hfield : hasErr (diningLocationsField p (fun i => env.uuids (2 + i)))
        (pushLoc (.field "dining_locations") (pushLoc (.index j) e)) := by
      unfold diningLocationsField
      rw [hl]
      dsimp only
      have := hasErr_mapErr_map (pushLoc (.field "dining_locations")) hlist
      simpa using this
    unfold validateMealPlanBase
    exact hasErr_vseq_right hfield
  · intro env p vs hl ⟨a1, h1⟩ ⟨a2, h2⟩ ⟨a3, h3⟩ ⟨a4, h4⟩ ⟨a5, h5⟩ ⟨a6, h6⟩ hent
    have hent' : ∀ j v, vs[j]? = some v →
        ∃ d, validateDiningLocationBaseV ((fun i => env.uuids (2 + i)) (0 + j)) v = .ok d := by
      intro j v hv
      simpa using hent j v hv
    obtain ⟨ds, hds⟩ :=
      @validateDLList_ok_of_entries (fun i => env.uuids (2 + i)) 0 vs hent'
    refine ⟨⟨a1, a2, a3, a4, a5, a6, ds⟩, validateMealPlanBase_ok_iff.mpr ?_⟩
    refine ⟨h1, h2, h3, h4, h5, h6, ?_⟩
    unfold diningLocationsField
    rw [hl]
    dsimp only
    rw [hds]
    rfl

/-- C8 witness: in a payload embedding one valid entry and one entry missing
`name`, validation fails with a missing-`name` error located at index 1 of
`dining_locations`. -/
theorem mealplan_nested_dining_locations_validated_witness :
    hasErr (validateMealPlanBase sampleEnv
        [("name", Value.str "P"), ("type", Value.str "t"), ("cost", Value.int 800),
         ("dining_locations", Value.list
           [.obj [("name", .str "Grace Dodge"), ("capacity", .int 200)],
            .obj [("capacity", .int 2)]])])
      ⟨[.field "dining_locations", .index 1, .field "name"], .missing⟩ :=
  mealplan_nested_dining_locations_validated.2.1 sampleEnv
    [("name", Value.str "P"), ("type", Value.str "t"), ("cost", Value.int 800),
     ("dining_locations", Value.list
       [.obj [("name", .str "Grace Dodge"), ("capacity", .int 200)],
        .obj [("capacity", .int 2)]])]
    [.obj [("name", .str "Grace Dodge"), ("capacity", .int 200)],
     .obj [("capacity", .int 2)]]
    rfl 1 (.obj [("capacity", .int 2)]) [⟨[.field "name"], .missing⟩]
    ⟨[.field "name"], .missing⟩ rfl rfl (List.mem_singleton.mpr rfl)

/-- C9 counterexample: validation is not a deterministic function of the
payload alone: on a DiningLocationCreate payload omitting the defaulted id,
two runs whose `uuid4` draws differ produce different records. -/
theorem validation_not_payload_deterministic :
    validateDiningLocationCreate ⟨fun _ => ⟨1⟩, fun _ => ⟨0⟩⟩
      [("name", Value.str "Grace Dodge"), ("capacity", Value.int 200)]
      ≠ validateDiningLocationCreate ⟨fun _ => ⟨2⟩, fun _ => ⟨0⟩⟩
      [("name", Value.str "Grace Dodge"), ("capacity", Value.int 200)] := by
  intro h
  have h1 : (⟨⟨1⟩, "Grace Dodge", 200⟩ : DiningLocationBase)
      = ⟨⟨2⟩, "Grace Dodge", 200⟩ := by injection h
  have h2 : (⟨1⟩ : UUID) = ⟨2⟩ := congrArg DiningLocationBase.dining_location_id h1
  have h3 : (1 : Nat) = 2 := congrArg UUID.val h2
  exact absurd h3 (by decide)

/-- C9 amended: validation is deterministic in the payload once the
server-generated defaults are supplied: two runs with different generator
draws agree on any Create payload that carries its own id (and, for a meal
plan, whose `dining_locations` entries each carry their own id); only omitted
server-defaulted fields depend on the draw. -/
theorem validation_deterministic_given_defaults :
    (∀ env env' p, (lookupField p "dining_location_id").isSome = true →
      validateDiningLocationCreate env p = validateDiningLocationCreate env' p) ∧
    (∀ env env' p, (lookupField p "meal_plan_id").isSome = true →
      (∀ vs, lookupField p "dining_locations" = some (.list vs) →
        ∀ v ∈ vs, valueSuppliesId v = true) →
      validateMealPlanCreate env p = validateMealPlanCreate env' p) :=
  ⟨validateDiningLocationCreate_env_irrel, validateMealPlanCreate_env_irrel⟩

/-- C9 amended witness: two runs with different draws agree on a concrete
MealPlanCreate payload supplying `meal_plan_id` and an entry with its id. -/
theorem validation_deterministic_given_defaults_witness :
    validateMealPlanCreate ⟨fun _ => ⟨1⟩, fun _ => ⟨0⟩⟩
      [("meal_plan_id", Value.uuid ⟨5⟩), ("name", Value.str "P"), ("type", Value.str "t"),
       ("cost", Value.int 800),
       ("dining_locations", Value.list
         [.obj [("dining_location_id", .uuid ⟨6⟩), ("name", .str "G"), ("capacity", .int 2)]])]
      = validateMealPlanCreate ⟨fun _ => ⟨2⟩, fun _ => ⟨0⟩⟩
      [("meal_plan_id", Value.uuid ⟨5⟩), ("name", Value.str "P"), ("type", Value.str "t"),
       ("cost", Value.int 800),
       ("dining_locations", Value.list
         [.obj [("dining_location_id", .uuid ⟨6⟩), ("name", .str "G"), ("capacity", .int 2)]])] := by
  apply validation_deterministic_given_defaults.2
  · rfl
  · intro vs hvs v hv
    have hlist : [Value.obj [("dining_location_id", .uuid ⟨6⟩), ("name", .str "G"),
        ("capacity", .int 2)]] = vs := by
      injection hvs with h'
      injection h' with h''
    subst hlist
    obtain rfl : v = .obj [("dining_location_id", .uuid ⟨6⟩), ("name", .str "G"), ("capacity", .int 2)] := by
      simpa using hv
    rfl

/-- C10: the MealPlanRead shape carries a second server-generated UUID field
`id` besides `meal_plan_id`, and the serialized representation of every
MealPlanRead record exposes both keys, each carrying the value of its own field. -/
theorem mealplanread_exposes_extra_id :
    ∀ m : MealPlanRead,
      lookupField (serializeMealPlanRead m) "id" = some (.uuid m.id) ∧
      lookupField (serializeMealPlanRead m) "meal_plan_id" = some (.uuid m.meal_plan_id) ∧
      (∃ m' : MealPlanRead, m'.id ≠ m'.meal_plan_id) :=
  fun m => ⟨rfl, rfl, ⟨⟨⟨0⟩, "", "", 0, none, none, [], ⟨1⟩, ⟨0⟩, ⟨0⟩⟩,
    fun h => absurd (congrArg UUID.val h) (by decide)⟩⟩

end MealPlanService
